import Mathlib

/-!
Verification of `os-metrics-to-influxdb.py` against its specification.

The script's core is a module-level loop that accumulates encoded
line-protocol lines into size-bounded batches and POSTs each batch.
We embed the loop, the line encoding, the request-header construction
and the organisation-id lookup as Lean functions and prove the spec's
testable properties about them.
-/

namespace OsMetrics

/-- The batch send loop of the script (module level, lines 138-154),
string-level view: state is the running byte `counter` and the staged
buffer `to_send`; for each `line` the counter grows by `len(line)` and
the buffer by `line + "\n"`; when `counter >= limit_bytes` or the line
is the last one (`lines_to_send == 0`, i.e. the remaining list is
empty), the staged body is emitted and the state reset.  Returns the
list of POSTed bodies in order. -/
def sendLoop (limitBytes : Nat) : List String → Nat → String → List String
  | [], _, _ => []
  | line :: rest, counter, toSend =>
    let counter' := counter + line.length
    let toSend' := toSend ++ line ++ "\n"
    if limitBytes ≤ counter' ∨ rest = [] then
      toSend' :: sendLoop limitBytes rest 0 ""
    else
      sendLoop limitBytes rest counter' toSend'

/-- The same loop viewed at the granularity of lines: each batch is the
list of lines staged between two flushes.  `counter` and the flush
condition are exactly those of `sendLoop`. -/
def batchLoop (limitBytes : Nat) : List String → Nat → List String → List (List String)
  | [], _, _ => []
  | line :: rest, counter, staged =>
    let counter' := counter + line.length
    let staged' := staged ++ [line]
    if limitBytes ≤ counter' ∨ rest = [] then
      staged' :: batchLoop limitBytes rest 0 []
    else
      batchLoop limitBytes rest counter' staged'

/-- The body built for a batch: each line with a newline appended,
concatenated (`to_send += f"{line}\n"`). -/
def batchBody : List String → String
  | [] => ""
  | l :: b => l ++ "\n" ++ batchBody b

/-- The batches produced for an input sequence of encoded lines, starting
from the loop's initial state (`counter = 0`, empty buffer). -/
def batches (limitBytes : Nat) (lines : List String) : List (List String) :=
  batchLoop limitBytes lines 0 []

/-- The script's driver: the flush threshold compared against the byte
counter is `args.influxdb_rate_limit * 1024` (line 146), and the loop
starts with `counter = 0`, `to_send = ""`. -/
def sendMetrics (rateLimit : Nat) (lines : List String) : List String :=
  sendLoop (rateLimit * 1024) lines 0 ""

/-- Byte size of a batch as counted by the loop: the sum of the lengths
of its lines, newlines excluded. -/
def batchSize (b : List String) : Nat :=
  (b.map String.length).sum

/-- The line-protocol encoding the script performs with its f-strings
(lines 125-128): `f"{metric_name},host=ansible percent_usage={value}"`,
generalised over the metric name, the single tag pair, the field name
and the rendered field value. -/
def encode (metric_name tagKey tagVal field_name value : String) : String :=
  metric_name ++ "," ++ tagKey ++ "=" ++ tagVal ++ " " ++ field_name ++ "=" ++ value

/-- The script's metric list `metric_line_proto` (lines 125-128); `cpu`
and `mem` stand for the decimal string renderings of `cpu_percent()`
and `virtual_memory().percent`. -/
def metric_line_proto (cpu mem : String) : List String :=
  ["cpu_utilisation,host=ansible percent_usage=" ++ cpu,
   "memory_utilisation,host=ansible percent_usage=" ++ mem]

/-- The request headers built by the script (lines 134-137): the three
base headers, and `Content-Encoding: gzip` appended exactly when the
`--influxdb_gzip` flag is set. -/
def request_headers (token : String) (gzip : Bool) : List (String × String) :=
  [("Authorization", "Token " ++ token),
   ("Content-type", "text/plain; charset=utf-8"),
   ("Accept", "application/json")] ++
  (if gzip then [("Content-Encoding", "gzip")] else [])

/-- Byte rendering of a body string: its codepoints, which coincide
with the UTF-8 bytes for the ASCII line-protocol text at hand. -/
def textBytes (s : String) : List Nat :=
  s.data.map Char.toNat

/-- The body bytes passed to `requests.post` (line 151): `data=to_send`,
i.e. the plain staged text; the script applies no compression whatever
the value of the gzip flag, which this definition therefore ignores. -/
def request_body (gzip : Bool) (to_send : String) : List Nat :=
  textBytes to_send

/-- Modelled from the spec: the script contains no compression code, so
the gzip output format is taken from the spec's requirement that the
body be "the gzip-compressed form of the line-protocol text".  Per RFC
1952 every gzip stream begins with the fixed magic bytes 31 (0x1f) and
139 (0x8b); `isGzipFormOf body text` is this necessary condition on
`body` being the gzip compression of `text` (the deflate payload itself
is left unconstrained, which only weakens refutations' premises). -/
def isGzipFormOf (body : List Nat) (text : String) : Prop :=
  body.take 2 = [31, 139]

instance (body : List Nat) (text : String) : Decidable (isGzipFormOf body text) :=
  inferInstanceAs (Decidable (body.take 2 = [31, 139]))

/-- One entry of the `orgs` array in the organisation-lookup JSON
response; `id` is the string the script's `str(...)` produces from the
entry's `id` field. -/
structure OrgEntry where
  id : String
deriving DecidableEq

/-- The organisation-lookup HTTP response as `get_org_id` consumes it:
`org_response.status_code` and `org_response.json()["orgs"]`. -/
structure OrgsResponse where
  status_code : Nat
  orgs : List OrgEntry
deriving DecidableEq

/-- Outcome of `get_org_id`: either the process terminates via
`sys.exit()` -- called with no argument, so `SystemExit` carries `None`
and the process exit status is 0 -- or the function returns an id. -/
inductive OrgIdResult where
  | exited (code : Nat)
  | ok (id : String)
deriving DecidableEq

/-- `get_org_id` (lines 85-110): a non-200 status logs an error and
calls `sys.exit()`; an empty `orgs` list logs an error and calls
`sys.exit()`; otherwise the function returns `str(orgs[0]["id"])`. -/
def get_org_id (resp : OrgsResponse) : OrgIdResult :=
  if resp.status_code ≠ 200 then
    OrgIdResult.exited 0
  else
    match resp.orgs with
    | [] => OrgIdResult.exited 0
    | e :: _ => OrgIdResult.ok e.id

lemma batchBody_append (xs ys : List String) :
    batchBody (xs ++ ys) = batchBody xs ++ batchBody ys := by
  induction xs with
  | nil => apply String.ext; simp [batchBody]
  | cons l xs ih => apply String.ext; simp [batchBody, ih]

/-- Bridge between the two views of the loop: the string bodies emitted
by `sendLoop` are exactly the `batchBody` renderings of the batches of
`batchLoop`, provided the staged string is the rendering of the staged
lines. -/
lemma sendLoop_eq_map_batchBody (limitBytes : Nat) :
    ∀ (lines : List String) (counter : Nat) (staged : List String),
      sendLoop limitBytes lines counter (batchBody staged) =
        (batchLoop limitBytes lines counter staged).map batchBody := by
  intro lines
  induction lines with
  | nil => intro counter staged; simp [sendLoop, batchLoop]
  | cons line rest ih =>
    intro counter staged
    have hstep : batchBody staged ++ line ++ "\n" = batchBody (staged ++ [line]) := by
      apply String.ext; simp [batchBody_append, batchBody]
    by_cases h : limitBytes ≤ counter + line.length ∨ rest = []
    · have h0 : batchBody ([] : List String) = "" := rfl
      simp only [sendLoop, batchLoop, if_pos h, List.map_cons]
      rw [hstep, ← h0, ih]
    · simp only [sendLoop, batchLoop, if_neg h]
      rw [hstep, ih]

/-- The driver's output, as the rendered batches. -/
lemma sendMetrics_eq_map (rate : Nat) (lines : List String) :
    sendMetrics rate lines = (batches (rate * 1024) lines).map batchBody :=
  sendLoop_eq_map_batchBody (rate * 1024) lines 0 []

lemma flatten_batchLoop (limitBytes : Nat) :
    ∀ (lines : List String) (counter : Nat) (staged : List String),
      (batchLoop limitBytes lines counter staged).flatten =
        if lines = [] then [] else staged ++ lines := by
  intro lines
  induction lines with
  | nil => intro counter staged; simp [batchLoop]
  | cons line rest ih =>
    intro counter staged
    by_cases h : limitBytes ≤ counter + line.length ∨ rest = []
    · simp only [batchLoop, if_pos h, List.flatten_cons]
      rw [ih]
      by_cases hrest : rest = []
      · simp [hrest]
      · simp [hrest]
    · simp only [batchLoop, if_neg h]
      rw [ih]
      have hrest : rest ≠ [] := fun hr => h (Or.inr hr)
      simp [hrest]

lemma batchSize_snoc (staged : List String) (line : String) :
    batchSize (staged ++ [line]) = batchSize staged + line.length := by
  simp [batchSize]

/-- Invariant of the loop: provided the running counter equals the byte
size of the staged lines (true of the initial state `0`, `[]`), every
batch the loop closes is nonempty, and it closes either because the
counter -- which then equals the closed batch's `batchSize` -- has
reached the limit, or because the batch holds the final input line. -/
lemma batchLoop_mem_spec (limitBytes : Nat) :
    ∀ (lines : List String) (counter : Nat) (staged : List String),
      counter = batchSize staged →
      ∀ b ∈ batchLoop limitBytes lines counter staged,
        b ≠ [] ∧
          (limitBytes ≤ batchSize b ∨
            ∃ last, lines.getLast? = some last ∧ last ∈ b) := by
  intro lines
  induction lines with
  | nil => intro counter staged _ b hb; simp [batchLoop] at hb
  | cons line rest ih =>
    intro counter staged hinv b hb
    have hlast : rest ≠ [] → (line :: rest).getLast? = rest.getLast? := by
      intro hr
      cases rest with
      | nil => exact absurd rfl hr
      | cons r rs => simp [List.getLast?_cons_cons]
    by_cases h : limitBytes ≤ counter + line.length ∨ rest = []
    · simp only [batchLoop, if_pos h, List.mem_cons] at hb
      rcases hb with hb | hb
      · subst hb
        refine ⟨by simp, ?_⟩
        rcases h with h | h
        · left
          rw [batchSize_snoc, ← hinv]
          exact h
        · right
          exact ⟨line, by simp [h], by simp⟩
      · obtain ⟨hne, hcase⟩ := ih 0 [] (by simp [batchSize]) b hb
        refine ⟨hne, ?_⟩
        rcases hcase with hc | ⟨last, hl, hmem⟩
        · exact Or.inl hc
        · have hr : rest ≠ [] := by
            intro hr0
            rw [hr0] at hl
            simp at hl
          exact Or.inr ⟨last, by rw [hlast hr]; exact hl, hmem⟩
    · simp only [batchLoop, if_neg h] at hb
      have hr : rest ≠ [] := fun hr0 => h (Or.inr hr0)
      have hinv' : counter + line.length = batchSize (staged ++ [line]) := by
        rw [batchSize_snoc, hinv]
      obtain ⟨hne, hcase⟩ := ih (counter + line.length) (staged ++ [line]) hinv' b hb
      refine ⟨hne, ?_⟩
      rcases hcase with hc | ⟨last, hl, hmem⟩
      · exact Or.inl hc
      · exact Or.inr ⟨last, by rw [hlast hr]; exact hl, hmem⟩

lemma batchBody_length (b : List String) :
    (batchBody b).length = batchSize b + b.length := by
  induction b with
  | nil => simp [batchBody, batchSize]
  | cons l b ih =>
    have hsz : batchSize (l :: b) = l.length + batchSize b := by simp [batchSize]
    have hnl : ("\n" : String).length = 1 := rfl
    show (l ++ "\n" ++ batchBody b).length = batchSize (l :: b) + (l :: b).length
    rw [String.length_append, String.length_append, ih, hsz, hnl, List.length_cons]
    omega

lemma batchBody_newline (b : List String) (hne : b ≠ []) :
    ∃ s, batchBody b = s ++ "\n" := by
  induction b with
  | nil => exact absurd rfl hne
  | cons l b ih =>
    cases b with
    | nil => exact ⟨l, by apply String.ext; simp [batchBody]⟩
    | cons m b =>
      obtain ⟨s, hs⟩ := ih (by simp)
      refine ⟨l ++ "\n" ++ s, ?_⟩
      rw [show batchBody (l :: m :: b) = l ++ "\n" ++ batchBody (m :: b) from rfl, hs]
      apply String.ext
      simp

lemma metric_line_proto_eq_encode (cpu mem : String) :
    metric_line_proto cpu mem =
      [encode "cpu_utilisation" "host" "ansible" "percent_usage" cpu,
       encode "memory_utilisation" "host" "ansible" "percent_usage" mem] := rfl

/-- Claim C1: a batch is closed only when the cumulative line-size
counter has reached or exceeded the limit `L` (at close time the
counter equals the closed batch's `batchSize`) or the batch contains
the final input line, and no produced batch is empty. -/
theorem batcher_closes_only_at_threshold_or_last (L : Nat) (lines : List String)
    (b : List String) (hb : b ∈ batches L lines) :
    b ≠ [] ∧ (L ≤ batchSize b ∨ ∃ last, lines.getLast? = some last ∧ last ∈ b) :=
  batchLoop_mem_spec L lines 0 [] (by simp [batchSize]) b hb

theorem batcher_closes_only_at_threshold_or_last_witness :
    (["ab"] ∈ batches 100 ["ab"]) ∧
    ((["ab"] : List String) ≠ [] ∧
      (100 ≤ batchSize ["ab"] ∨
        ∃ last, (["ab"] : List String).getLast? = some last ∧
          last ∈ (["ab"] : List String))) :=
  ⟨by decide, batcher_closes_only_at_threshold_or_last 100 ["ab"] ["ab"] (by decide)⟩

/-- Claim C2: concatenating the lines of all batches, in batch order,
yields exactly the original input sequence -- no line dropped,
duplicated or reordered. -/
theorem batcher_roundtrip (L : Nat) (lines : List String) :
    (batches L lines).flatten = lines := by
  rw [batches, flatten_batchLoop]
  by_cases h : lines = [] <;> simp [h]

/-- Claim C3, the code evaluated at the failing input: with the gzip
flag set, the headers do carry `Content-Encoding: gzip`, yet the body
handed to `requests.post` is the plain line-protocol text and is not a
gzip stream (its first byte is the codepoint of 'c', not the gzip magic
byte 31), so the body is never "the gzip-compressed form of the
line-protocol text" required by the claim. -/
theorem gzip_header_without_compression :
    ("Content-Encoding", "gzip") ∈ request_headers "sometoken" true ∧
    request_body true "cpu_utilisation,host=ansible percent_usage=42.5\n" =
      textBytes "cpu_utilisation,host=ansible percent_usage=42.5\n" ∧
    ¬ isGzipFormOf
        (request_body true "cpu_utilisation,host=ansible percent_usage=42.5\n")
        "cpu_utilisation,host=ansible percent_usage=42.5\n" :=
  ⟨by decide, rfl, by decide⟩

/-- Claim C4, refuted as stated: the script terminates the failing
org-lookup paths via `sys.exit()` with no argument, which exits the
process with status 0, not a non-zero status; at the concrete response
with status 404 and an empty `orgs` list there is no non-zero exit
code. -/
theorem org_lookup_nonzero_exit_refuted :
    ¬ (∀ resp : OrgsResponse,
        (resp.status_code ≠ 200 ∨ resp.orgs = []) →
          ∃ c, get_org_id resp = OrgIdResult.exited c ∧ c ≠ 0) := by
  intro h
  obtain ⟨c, hc, hcne⟩ := h ⟨404, []⟩ (Or.inl (by decide))
  have h0 : get_org_id ⟨404, []⟩ = OrgIdResult.exited 0 := rfl
  rw [h0] at hc
  cases hc
  exact hcne rfl

/-- Claim C4 as amended: on a non-200 status or an empty organisation
list, `get_org_id` terminates the process immediately (with exit
status 0, since `sys.exit()` is called without an argument) and never
returns an identifier. -/
theorem org_lookup_failure_exits (resp : OrgsResponse)
    (h : resp.status_code ≠ 200 ∨ resp.orgs = []) :
    get_org_id resp = OrgIdResult.exited 0 := by
  by_cases h200 : resp.status_code ≠ 200
  · simp [get_org_id, h200]
  · rcases h with h | h
    · exact absurd h h200
    · simp [get_org_id, h200, h]

theorem org_lookup_failure_exits_witness :
    ((⟨500, []⟩ : OrgsResponse).status_code ≠ 200 ∨
      (⟨500, []⟩ : OrgsResponse).orgs = []) ∧
    get_org_id ⟨500, []⟩ = OrgIdResult.exited 0 :=
  ⟨Or.inl (by decide), org_lookup_failure_exits ⟨500, []⟩ (Or.inl (by decide))⟩

/-- Claim C5: encoding the sample (metric `cpu_utilisation`, tag
`host=ansible`, field `percent_usage`, value 42.5 -- whose Python
`str` rendering is `"42.5"`) yields exactly
`"cpu_utilisation,host=ansible percent_usage=42.5"`, whose last
character is not a newline. -/
theorem encode_cpu_sample_exact :
    encode "cpu_utilisation" "host" "ansible" "percent_usage" "42.5" =
      "cpu_utilisation,host=ansible percent_usage=42.5" ∧
    (encode "cpu_utilisation" "host" "ansible" "percent_usage" "42.5").data.getLast?
      ≠ some '\n' :=
  ⟨rfl, by decide⟩

set_option maxRecDepth 4096 in
/-- Claim C6: with sizes [50, 60] and L = 100 the Batcher produces one
batch holding both lines (50 < 100, so no flush after line 1; the
cumulative 110 >= 100 flushes after line 2), and a single line of size
150 with L = 100 flushes after that first line (150 >= 100). -/
theorem batcher_threshold_boundary :
    batches 100 [String.mk (List.replicate 50 'a'), String.mk (List.replicate 60 'b')] =
      [[String.mk (List.replicate 50 'a'), String.mk (List.replicate 60 'b')]] ∧
    ¬ (100 ≤ batchSize [String.mk (List.replicate 50 'a')]) ∧
    100 ≤ batchSize [String.mk (List.replicate 50 'a'), String.mk (List.replicate 60 'b')] ∧
    batches 100 [String.mk (List.replicate 150 'c')] =
      [[String.mk (List.replicate 150 'c')]] ∧
    100 ≤ batchSize [String.mk (List.replicate 150 'c')] := by
  refine ⟨by decide, by decide, by decide, by decide, by decide⟩

/-- Claim C7: the loop's output is the newline-rendered batches grouped
by the counter over the limit `rate * 1024` (the caller-supplied rate
limit times 1024), and for each batch the rendered body is exactly one
newline character per line longer than the counter's total at close
time: the counter counts each line's length without its newline while
the staged buffer receives the line with the newline appended. -/
theorem batcher_counter_and_threshold (rate : Nat) (lines : List String)
    (b : List String) (hb : b ∈ batches (rate * 1024) lines) :
    sendMetrics rate lines = (batches (rate * 1024) lines).map batchBody ∧
    (batchBody b).length = batchSize b + b.length :=
  ⟨sendMetrics_eq_map rate lines, batchBody_length b⟩

theorem batcher_counter_and_threshold_witness :
    (["a"] ∈ batches (1 * 1024) ["a"]) ∧
    (sendMetrics 1 ["a"] = (batches (1 * 1024) ["a"]).map batchBody ∧
      (batchBody ["a"]).length = batchSize ["a"] + (["a"] : List String).length) :=
  ⟨by decide, batcher_counter_and_threshold 1 ["a"] ["a"] (by decide)⟩

/-- Claim C8: a single input line smaller than the limit `L` produces
exactly one batch, containing exactly that line. -/
theorem single_small_line_one_batch (L : Nat) (l : String) (h : l.length < L) :
    batches L [l] = [[l]] := by
  simp [batches, batchLoop]

theorem single_small_line_one_batch_witness :
    ("a" : String).length < 100 ∧ batches 100 ["a"] = [["a"]] :=
  ⟨by decide, single_small_line_one_batch 100 "a" (by decide)⟩

/-- Claim C9: on a 200 response with a non-empty `orgs` list,
`get_org_id` returns the id of the entry at index 0, deterministically
and without disambiguating further matches. -/
theorem org_lookup_returns_first_id (resp : OrgsResponse) (e : OrgEntry)
    (rest : List OrgEntry) (h200 : resp.status_code = 200)
    (horgs : resp.orgs = e :: rest) :
    get_org_id resp = OrgIdResult.ok e.id := by
  simp [get_org_id, h200, horgs]

theorem org_lookup_returns_first_id_witness :
    (⟨200, [⟨"abc123"⟩, ⟨"zzz999"⟩]⟩ : OrgsResponse).status_code = 200 ∧
    (⟨200, [⟨"abc123"⟩, ⟨"zzz999"⟩]⟩ : OrgsResponse).orgs =
      ⟨"abc123"⟩ :: [⟨"zzz999"⟩] ∧
    get_org_id ⟨200, [⟨"abc123"⟩, ⟨"zzz999"⟩]⟩ = OrgIdResult.ok "abc123" :=
  ⟨rfl, rfl, org_lookup_returns_first_id ⟨200, [⟨"abc123"⟩, ⟨"zzz999"⟩]⟩
    ⟨"abc123"⟩ [⟨"zzz999"⟩] rfl rfl⟩

/-- Claim C10: every body handed to `requests.post` is the rendering of
a non-empty batch -- each line followed by a newline, concatenated --
and therefore ends with a newline character. -/
theorem bodies_newline_terminated (rate : Nat) (lines : List String)
    (body : String) (h : body ∈ sendMetrics rate lines) :
    ∃ b s, b ≠ [] ∧ body = batchBody b ∧ body = s ++ "\n" := by
  rw [sendMetrics_eq_map] at h
  obtain ⟨b, hb, hbody⟩ := List.mem_map.mp h
  have hne := (batchLoop_mem_spec (rate * 1024) lines 0 [] (by simp [batchSize]) b hb).1
  obtain ⟨s, hs⟩ := batchBody_newline b hne
  exact ⟨b, s, hne, hbody.symm, by rw [← hbody]; exact hs⟩

theorem bodies_newline_terminated_witness :
    ("a\n" ∈ sendMetrics 1 ["a"]) ∧
    ∃ b s, b ≠ [] ∧ "a\n" = batchBody b ∧ ("a\n" : String) = s ++ "\n" :=
  ⟨by decide, bodies_newline_terminated 1 ["a"] "a\n" (by decide)⟩

end OsMetrics
